import Mathlib

/-!
# Image relay handler: pricing, quota gate and settlement

A shallow embedding of `relay/controller/image.go` (`RelayImageHelper`).

* Go `int` is a 64-bit two's-complement integer: values are `Int`, and every
  integer operation of the handler (`*`, `-`) is followed by `wrap64`.
* Go `float64` arithmetic is a parameter (`Arith`): the handler only multiplies
  floats and converts them with `int(x)`.  Theorems are stated for every such
  arithmetic; `f64` is a concrete round-to-nearest-even binary64 multiplication
  on which the definitions can be evaluated.
* Collaborators that live outside the handler (decoder, validator, adaptor,
  stores, option map) are fields of `Env`; the calls the handler makes that
  have an effect are recorded, in order, in the trace of the result.  A
  collaborator returns a value and does not change the request or the context
  it is handed; `GetTokenById` yields a token record (the handler reads
  `token.BillingEnabled` whether or not the lookup reported an error).
* The errors returned by the settlement writes are only logged by the handler
  and are not part of the model.
-/

namespace RelayImage

set_option maxRecDepth 8000

/-! ## Machine integers -/

/-- Two's-complement reduction of an integer to the 64-bit range of Go `int`. -/
def wrap64 (z : Int) : Int := (z + 2 ^ 63) % 2 ^ 64 - 2 ^ 63

/-- Go `a * b` on `int`. -/
def mul64 (a b : Int) : Int := wrap64 (a * b)

/-- Go `a - b` on `int`. -/
def sub64 (a b : Int) : Int := wrap64 (a - b)

/-! ## Float arithmetic used by the handler -/

/-- The float64 operations the handler uses: multiplication, the conversion
`int(x)`, and the three literals `1` (also `sizeRatio := 1.0`), `1000` and
`500000`. -/
structure Arith where
  F : Type
  mul : F → F → F
  toInt : F → Int
  one : F
  thousand : F
  c500000 : F

/-- Multiplying by the literal `1` returns the operand (true of IEEE-754
multiplication for every operand). -/
def Arith.MulOne (A : Arith) : Prop := ∀ x : A.F, A.mul x A.one = x

/-- Sign behaviour of multiplication and of `int(x)`.  `notNeg x` reads
"`x < 0` is false".  A product of two such floats is again not negative, and
`int(x)` of such a float is either non-negative or the out-of-range result
`-2^63`. -/
structure SignLaws (A : Arith) where
  notNeg : A.F → Prop
  mul_notNeg : ∀ x y, notNeg x → notNeg y → notNeg (A.mul x y)
  toInt_notNeg : ∀ x, notNeg x → 0 ≤ A.toInt x ∨ A.toInt x = -2 ^ 63
  one_notNeg : notNeg A.one
  thousand_notNeg : notNeg A.thousand
  c500000_notNeg : notNeg A.c500000

/-! ### A concrete binary64 multiplication -/

/-- Number of halvings needed to bring `p` below `2 ^ 53`. -/
def excessBits : Nat → Nat → Nat
  | 0, _ => 0
  | fuel + 1, p => if p < 2 ^ 53 then 0 else excessBits fuel (p / 2) + 1

/-- Round a natural significand to at most 53 bits, ties to even.  Returns the
rounded significand and the number of bits dropped. -/
def roundMant (p : Nat) : Nat × Nat :=
  if p ≤ 2 ^ 53 then (p, 0)
  else
    let k := excessBits 64 p
    let q := p / 2 ^ k
    let r := p % 2 ^ k
    (if 2 ^ k < 2 * r ∨ (2 * r = 2 ^ k ∧ q % 2 = 1) then q + 1 else q, k)

/-- A finite binary64 value `m * 2 ^ e` with a significand of at most 53 bits
(the exponent range is not bounded: no overflow to infinity, no subnormals). -/
structure F64 where
  m : Int
  e : Int
  hm : m.natAbs ≤ 2 ^ 53

/-- IEEE-754 multiplication, round to nearest, ties to even. -/
def F64.mul (x y : F64) : F64 :=
  let p := x.m * y.m
  let r := roundMant p.natAbs
  { m := p.sign * (r.1 : Int)
    e := x.e + y.e + (r.2 : Int)
    hm := by
      have excess_lt : ∀ fuel q : Nat, q < 2 ^ (53 + fuel) →
          q / 2 ^ excessBits fuel q < 2 ^ 53 := by
        intro fuel
        induction fuel with
        | zero => intro q h; simpa [excessBits] using h
        | succ n ih =>
          intro q h
          unfold excessBits
          split
          · simpa using ‹q < 2 ^ 53›
          · have h2 : q / 2 < 2 ^ (53 + n) := by
              apply Nat.div_lt_of_lt_mul
              calc q < 2 ^ (53 + (n + 1)) := h
                _ = 2 * 2 ^ (53 + n) := by ring
            have h3 := ih (q / 2) h2
            rw [pow_succ, mul_comm, ← Nat.div_div_eq_div_mul]
            exact h3
      have hp : p.natAbs ≤ 2 ^ 106 := by
        have h1 : p.natAbs = x.m.natAbs * y.m.natAbs := Int.natAbs_mul _ _
        rw [h1]
        calc x.m.natAbs * y.m.natAbs ≤ 2 ^ 53 * 2 ^ 53 := Nat.mul_le_mul x.hm y.hm
          _ = 2 ^ 106 := by norm_num
      have hr : (roundMant p.natAbs).1 ≤ 2 ^ 53 := by
        unfold roundMant
        split
        · assumption
        · have hq := excess_lt 64 p.natAbs (lt_of_le_of_lt hp (by norm_num))
          simp only
          split <;> omega
      rw [Int.natAbs_mul, Int.natAbs_ofNat]
      calc p.sign.natAbs * r.1 ≤ 1 * r.1 := by
            apply Nat.mul_le_mul_right
            rw [Int.natAbs_sign]; split <;> omega
        _ ≤ 2 ^ 53 := by simpa using hr }

/-- Go `int(x)` on amd64: truncation toward zero; a value outside the range of
`int` converts to `-2^63`. -/
def F64.toInt (x : F64) : Int :=
  let t := if 0 ≤ x.e then x.m * ((2 ^ x.e.toNat : Nat) : Int)
    else Int.tdiv x.m ((2 ^ (-x.e).toNat : Nat) : Int)
  if -2 ^ 63 ≤ t ∧ t < 2 ^ 63 then t else -2 ^ 63

/-- The float64 value of a natural number below `2 ^ 53`. -/
def F64.ofSmallNat (n : Nat) (h : n ≤ 2 ^ 53) : F64 :=
  { m := (n : Int), e := 0, hm := by simpa using h }

/-- Binary64 multiplication and conversion as an `Arith`. -/
def f64 : Arith where
  F := F64
  mul := F64.mul
  toInt := F64.toInt
  one := F64.ofSmallNat 1 (by norm_num)
  thousand := F64.ofSmallNat 1000 (by norm_num)
  c500000 := F64.ofSmallNat 500000 (by norm_num)

/-! ## Data model -/

/-- A Go `error`, by its message. -/
abbrev Err := String

/-- The bytes of a request body. -/
abbrev Body := String

/-- The provider-native request an adaptor converts to (Go `any`). -/
abbrev Converted := String

/-- The channel types the handler distinguishes (`common.ChannelType...`). -/
inductive ChannelType where
  | OpenAI
  | Azure
  | Ali
  | Baidu
  | Zhipu
  | Other (code : Nat)
  deriving DecidableEq, Repr

/-- The canonical image request (`relaymodel.ImageRequest`). -/
structure ImageRequest where
  Model : String
  Prompt : String
  N : Int
  Size : String
  Quality : String
  deriving DecidableEq, Repr

/-- The per-request context (`util.RelayMeta`). -/
structure RelayMeta where
  Mode : Int
  UserId : Int
  TokenId : Int
  ChannelId : Int
  ChannelType : ChannelType
  APIType : Int
  ModelMapping : List (String × String)
  OriginModelName : String
  ActualModelName : String
  deriving DecidableEq, Repr

/-- The error value the handler returns (`relaymodel.ErrorWithStatusCode`). -/
structure ErrorWithStatusCode where
  Message : String
  Code : String
  StatusCode : Int
  deriving DecidableEq, Repr

/-- Modelled from the spec: `openai.ErrorWrapper` is not part of the handler's
file; it builds the structured error from an error, an error code string and an
HTTP status. -/
def ErrorWrapper (err : Err) (code : String) (statusCode : Int) : ErrorWithStatusCode :=
  { Message := err, Code := code, StatusCode := statusCode }

/-- The upstream HTTP response, as far as the handler reads it. -/
structure Response where
  StatusCode : Int
  Payload : Body
  deriving DecidableEq, Repr

/-- The API token record read by `model.GetTokenById`. -/
structure Token where
  Id : Int
  Name : String
  BillingEnabled : Bool
  deriving DecidableEq, Repr

/-- A provider adaptor: the three operations the handler calls. -/
structure Adaptor where
  ConvertImageRequest : ImageRequest → Except Err Converted
  DoRequest : RelayMeta → Body → Except Err Response
  DoResponse : Response → RelayMeta → Option ErrorWithStatusCode

/-- The text of `modelRatioString`: either `Sprintf("模型倍率 %.2f", modelRatio)`
or the fixed text `"按次计费"`. -/
inductive RatioString (A : Arith) where
  | modelRatio (r : A.F)
  | perRequest

/-- The text `Sprintf(" %s，分组倍率 %.2f", modelRatioString, groupRatio)`, by its
two arguments. -/
structure Multiplier (A : Arith) where
  modelRatioString : RatioString A
  groupRatio : A.F

/-- The arguments of `model.RecordConsumeLog`, in order. -/
structure ConsumeLog (A : Arith) where
  userId : Int
  channelId : Int
  channelName : String
  promptTokens : Int
  completionTokens : Int
  modelName : String
  tokenName : String
  quota : Int
  content : String
  tokenId : Int
  multiplier : Multiplier A
  userQuota : Int
  useTimeSeconds : Int
  isStream : Bool

/-- The calls of the handler that act on a collaborator, with their arguments. -/
inductive Event (A : Arith) where
  | ConvertImageRequest (req : ImageRequest)
  | DoRequest (relayMeta : RelayMeta) (body : Body)
  | DoResponse (resp : Response) (relayMeta : RelayMeta)
  | PostConsumeTokenQuota (tokenId quota : Int)
  | CacheUpdateUserQuota (userId : Int)
  | RecordConsumeLog (log : ConsumeLog A)
  | UpdateUserUsedQuotaAndRequestCount (userId quota : Int)
  | UpdateChannelUsedQuota (channelId quota : Int)

/-- Everything the handler reads from its surroundings for one request: the
gin context, the decoder and validator, the adaptor registry, the pricing
tables, the option map and the stores. -/
structure Env (A : Arith) where
  relayMeta : RelayMeta
  channelName : String
  group : String
  tokenName : String
  ctxChannelId : Int
  requestBody : Body
  useTimeSeconds : Int
  getImageRequest : Except Err ImageRequest
  GetMappedModelName : String → List (String × String) → String × Bool
  validateImageRequest : ImageRequest → RelayMeta → Option ErrorWithStatusCode
  getImageCostRatio : ImageRequest → Except Err A.F
  marshalImageRequest : ImageRequest → Except Err Body
  marshalConverted : Converted → Except Err Body
  GetAdaptor : Int → Option Adaptor
  GetModelRatio : String → A.F
  GetGroupRatio : String → A.F
  GetModelRatio2 : String → Option A.F
  QuotaPerUnit : A.F
  OptionMap : String → String
  CacheGetUserQuota : Int → Int
  GetTokenById : Int → Token

/-- What the handler returns, and the calls it made, in order. -/
structure Outcome (A : Arith) where
  result : Option ErrorWithStatusCode
  trace : List (Event A)

/-! ## The handler -/

/-- Go `strconv.ParseBool` with the error dropped (`v, _ := ParseBool(s)`): the
six spellings of true give true, everything else false. -/
def parseBool (s : String) : Bool :=
  s = "1" ∨ s = "t" ∨ s = "T" ∨ s = "true" ∨ s = "TRUE" ∨ s = "True"

/-- The result of pricing: the quota and the text that describes the mode. -/
structure Priced (A : Arith) where
  quota : Int
  modelRatioString : RatioString A

/-- Lines 101-141 of `RelayImageHelper`, as a function of the values read:
`modelRatio`, `groupRatio`, `imageCostRatio`, `imageRequest.N`,
`token.BillingEnabled`, the two parsed options, the result of
`GetModelRatio2(imageRequest.Model)` and `common.QuotaPerUnit`. -/
def computeQuota (A : Arith) (modelRatio groupRatio imageCostRatio : A.F) (N : Int)
    (tokenBillingEnabled BillingByRequestEnabled ModelRatioEnabled : Bool)
    (modelRatio2 : Option A.F) (QuotaPerUnit : A.F) : Priced A :=
  let ratio := A.mul modelRatio groupRatio
  let sizeRatio := A.one
  if BillingByRequestEnabled && ModelRatioEnabled then
    if tokenBillingEnabled then
      match modelRatio2 with
      | none =>
        { quota := mul64 (A.toInt (A.mul (A.mul (A.mul ratio sizeRatio) imageCostRatio)
            A.thousand)) N
          modelRatioString := .modelRatio modelRatio }
      | some modelRatio2 =>
        let ratio := A.mul modelRatio2 groupRatio
        { quota := A.toInt (A.mul ratio QuotaPerUnit)
          modelRatioString := .perRequest }
    else
      { quota := mul64 (A.toInt (A.mul (A.mul (A.mul ratio sizeRatio) imageCostRatio)
          A.thousand)) N
        modelRatioString := .modelRatio modelRatio }
  else if BillingByRequestEnabled then
    match modelRatio2 with
    | none =>
      { quota := mul64 (A.toInt (A.mul (A.mul (A.mul ratio sizeRatio) imageCostRatio)
          A.thousand)) N
        modelRatioString := .modelRatio modelRatio }
    | some modelRatio2 =>
      let ratio := A.mul modelRatio2 groupRatio
      { quota := A.toInt (A.mul (A.mul ratio A.one) A.c500000)
        modelRatioString := .perRequest }
  else
    { quota := mul64 (A.toInt (A.mul (A.mul (A.mul ratio sizeRatio) imageCostRatio)
        A.thousand)) N
      modelRatioString := .modelRatio modelRatio }

/-- What lines 42-97 hand to the rest of the handler. -/
structure Prepared (A : Arith) where
  imageRequest : ImageRequest
  relayMeta : RelayMeta
  isModelMapped : Bool
  imageCostRatio : A.F
  requestBody : Body
  adaptor : Adaptor

/-- Lines 42-97: decode, map the model name, validate, look up the image cost
ratio, choose the request body, select the adaptor and, for Ali, Baidu and
Zhipu, convert the request.  Returns the error of the first failing step, or
the prepared values, together with the calls made. -/
def prepare (A : Arith) (env : Env A) :
    Except ErrorWithStatusCode (Prepared A) × List (Event A) :=
  match env.getImageRequest with
  | .error err => (.error (ErrorWrapper err "invalid_image_request" 400), [])
  | .ok decoded =>
    let mapped := env.GetMappedModelName decoded.Model env.relayMeta.ModelMapping
    let isModelMapped := mapped.2
    let imageRequest := { decoded with Model := mapped.1 }
    let relayMeta := { env.relayMeta with
      OriginModelName := decoded.Model, ActualModelName := imageRequest.Model }
    match env.validateImageRequest imageRequest relayMeta with
    | some bizErr => (.error bizErr, [])
    | none =>
      match env.getImageCostRatio imageRequest with
      | .error err => (.error (ErrorWrapper err "get_image_cost_ratio_failed" 500), [])
      | .ok imageCostRatio =>
        let body : Except Err Body :=
          if isModelMapped || relayMeta.ChannelType = ChannelType.Azure then
            env.marshalImageRequest imageRequest
          else
            .ok env.requestBody
        match body with
        | .error err => (.error (ErrorWrapper err "marshal_image_request_failed" 500), [])
        | .ok requestBody =>
          match env.GetAdaptor relayMeta.APIType with
          | none =>
            (.error (ErrorWrapper ("invalid api type: " ++ toString relayMeta.APIType)
              "invalid_api_type" 400), [])
          | some adaptor =>
            if relayMeta.ChannelType = ChannelType.Ali ∨
                relayMeta.ChannelType = ChannelType.Baidu ∨
                relayMeta.ChannelType = ChannelType.Zhipu then
              match adaptor.ConvertImageRequest imageRequest with
              | .error err =>
                (.error (ErrorWrapper err "convert_image_request_failed" 500),
                  [Event.ConvertImageRequest imageRequest])
              | .ok finalRequest =>
                match env.marshalConverted finalRequest with
                | .error err =>
                  (.error (ErrorWrapper err "marshal_image_request_failed" 500),
                    [Event.ConvertImageRequest imageRequest])
                | .ok jsonStr =>
                  (.ok { imageRequest := imageRequest, relayMeta := relayMeta,
                         isModelMapped := isModelMapped, imageCostRatio := imageCostRatio,
                         requestBody := jsonStr, adaptor := adaptor },
                    [Event.ConvertImageRequest imageRequest])
            else
              (.ok { imageRequest := imageRequest, relayMeta := relayMeta,
                     isModelMapped := isModelMapped, imageCostRatio := imageCostRatio,
                     requestBody := requestBody, adaptor := adaptor }, [])

/-- Lines 99-141 on the prepared request: read the ratios, the token and the
two options, and price the request. -/
def pricing (A : Arith) (env : Env A) (p : Prepared A) : Priced A :=
  let modelRatio := env.GetModelRatio p.imageRequest.Model
  let groupRatio := env.GetGroupRatio env.group
  let token := env.GetTokenById p.relayMeta.TokenId
  let BillingByRequestEnabled := parseBool (env.OptionMap "BillingByRequestEnabled")
  let ModelRatioEnabled := parseBool (env.OptionMap "ModelRatioEnabled")
  computeQuota A modelRatio groupRatio p.imageCostRatio p.imageRequest.N
    token.BillingEnabled BillingByRequestEnabled ModelRatioEnabled
    (env.GetModelRatio2 p.imageRequest.Model) env.QuotaPerUnit

/-- The deferred function of lines 154-176: the billing writes, in order. -/
def settle (A : Arith) (env : Env A) (p : Prepared A) (resp : Response) (priced : Priced A)
    (groupRatio : A.F) (userQuota : Int) : List (Event A) :=
  if resp.StatusCode ≠ 200 then []
  else
    [Event.PostConsumeTokenQuota p.relayMeta.TokenId priced.quota,
     Event.CacheUpdateUserQuota p.relayMeta.UserId] ++
    (if priced.quota ≠ 0 then
      [Event.RecordConsumeLog
        { userId := p.relayMeta.UserId
          channelId := p.relayMeta.ChannelId
          channelName := env.channelName
          promptTokens := 0
          completionTokens := 0
          modelName := p.imageRequest.Model
          tokenName := env.tokenName
          quota := priced.quota
          content := " "
          tokenId := p.relayMeta.TokenId
          multiplier := { modelRatioString := priced.modelRatioString, groupRatio := groupRatio }
          userQuota := userQuota
          useTimeSeconds := env.useTimeSeconds
          isStream := false },
       Event.UpdateUserUsedQuotaAndRequestCount p.relayMeta.UserId priced.quota,
       Event.UpdateChannelUsedQuota env.ctxChannelId priced.quota]
    else [])

/-- The handler `RelayImageHelper`: its return value (`none` is Go `nil`) and
the calls it made. -/
def RelayImageHelper (A : Arith) (env : Env A) : Outcome A :=
  match prepare A env with
  | (.error e, calls) => { result := some e, trace := calls }
  | (.ok p, calls) =>
    let groupRatio := env.GetGroupRatio env.group
    let userQuota := env.CacheGetUserQuota p.relayMeta.UserId
    let priced := pricing A env p
    if sub64 userQuota priced.quota < 0 then
      { result := some (ErrorWrapper "user quota is not enough" "insufficient_user_quota" 403)
        trace := calls }
    else
      match p.adaptor.DoRequest p.relayMeta p.requestBody with
      | .error err =>
        { result := some (ErrorWrapper err "do_request_failed" 500)
          trace := calls ++ [Event.DoRequest p.relayMeta p.requestBody] }
      | .ok resp =>
        { result := p.adaptor.DoResponse resp p.relayMeta
          trace := calls ++
            [Event.DoRequest p.relayMeta p.requestBody, Event.DoResponse resp p.relayMeta] ++
            settle A env p resp priced groupRatio userQuota }

/-! ## Reading a trace -/

/-- The event is one of the five settlement writes. -/
def Event.isBillingWrite {A : Arith} : Event A → Bool
  | .PostConsumeTokenQuota _ _ => true
  | .CacheUpdateUserQuota _ => true
  | .RecordConsumeLog _ => true
  | .UpdateUserUsedQuotaAndRequestCount _ _ => true
  | .UpdateChannelUsedQuota _ _ => true
  | _ => false

/-- The event is a call of `adaptor.DoRequest`. -/
def Event.isDoRequest {A : Arith} : Event A → Bool
  | .DoRequest _ _ => true
  | _ => false

/-- The event is a call of `adaptor.ConvertImageRequest`. -/
def Event.isConvert {A : Arith} : Event A → Bool
  | .ConvertImageRequest _ => true
  | _ => false

/-- The quota arguments of the `PostConsumeTokenQuota` calls, in order. -/
def tokenDebits {A : Arith} (tr : List (Event A)) : List Int :=
  tr.filterMap fun e => match e with
    | .PostConsumeTokenQuota _ q => some q
    | _ => none

/-- The user ids of the `CacheUpdateUserQuota` calls, in order. -/
def cacheRefreshes {A : Arith} (tr : List (Event A)) : List Int :=
  tr.filterMap fun e => match e with
    | .CacheUpdateUserQuota u => some u
    | _ => none

/-- The quota arguments of the `RecordConsumeLog` calls, in order. -/
def logQuotas {A : Arith} (tr : List (Event A)) : List Int :=
  tr.filterMap fun e => match e with
    | .RecordConsumeLog l => some l.quota
    | _ => none

/-- The quota arguments of the `UpdateUserUsedQuotaAndRequestCount` calls. -/
def userUpdates {A : Arith} (tr : List (Event A)) : List Int :=
  tr.filterMap fun e => match e with
    | .UpdateUserUsedQuotaAndRequestCount _ q => some q
    | _ => none

/-- The quota arguments of the `UpdateChannelUsedQuota` calls, in order. -/
def channelUpdates {A : Arith} (tr : List (Event A)) : List Int :=
  tr.filterMap fun e => match e with
    | .UpdateChannelUsedQuota _ q => some q
    | _ => none

/-- The bodies passed to `adaptor.DoRequest`, in order. -/
def doRequestBodies {A : Arith} (tr : List (Event A)) : List Body :=
  tr.filterMap fun e => match e with
    | .DoRequest _ body => some body
    | _ => none

/-- The requests passed to `adaptor.ConvertImageRequest`, in order. -/
def convertCalls {A : Arith} (tr : List (Event A)) : List ImageRequest :=
  tr.filterMap fun e => match e with
    | .ConvertImageRequest req => some req
    | _ => none

/-- The event with the elapsed time of a consumption log blanked. -/
def Event.eraseTime {A : Arith} : Event A → Event A
  | .RecordConsumeLog l => .RecordConsumeLog { l with useTimeSeconds := 0 }
  | e => e

/-! ## The specification's reading of pricing and body selection -/

/-- A per-request (flat-rate) row of the pricing table applies. -/
def perRequestRow (BillingByRequestEnabled ModelRatioEnabled tokenBillingEnabled : Bool)
    (modelRatio2Present : Bool) : Bool :=
  (BillingByRequestEnabled && ModelRatioEnabled && tokenBillingEnabled && modelRatio2Present)
    || (BillingByRequestEnabled && !ModelRatioEnabled && modelRatio2Present)

/-- The pricing table of the specification, first match wins.  The integer
product of the last row is the product of Go `int`. -/
def specQuota (A : Arith) (BillingByRequestEnabled ModelRatioEnabled tokenBillingEnabled : Bool)
    (modelRatio2 : Option A.F) (modelRatio groupRatio QuotaPerUnit imageCostRatio : A.F)
    (n : Int) : Int :=
  match BillingByRequestEnabled, ModelRatioEnabled, tokenBillingEnabled, modelRatio2 with
  | true, true, true, some r2 => A.toInt (A.mul (A.mul r2 groupRatio) QuotaPerUnit)
  | true, false, _, some r2 => A.toInt (A.mul (A.mul r2 groupRatio) A.c500000)
  | _, _, _, _ =>
    mul64 (A.toInt (A.mul (A.mul (A.mul (A.mul modelRatio groupRatio) A.one) imageCostRatio)
      A.thousand)) n

/-- The channel types whose requests are transcoded by the adaptor. -/
def transcoded (ct : ChannelType) : Bool :=
  ct = ChannelType.Ali ∨ ct = ChannelType.Baidu ∨ ct = ChannelType.Zhipu

/-- Body selection as the specification words it, for the decoded request and
the selected adaptor. -/
def specBody {A : Arith} (env : Env A) (decoded : ImageRequest) (adaptor : Adaptor) :
    Except Err Body :=
  let mapped := env.GetMappedModelName decoded.Model env.relayMeta.ModelMapping
  let canonical : ImageRequest := { decoded with Model := mapped.1 }
  if transcoded env.relayMeta.ChannelType then
    match adaptor.ConvertImageRequest canonical with
    | .error err => .error err
    | .ok native => env.marshalConverted native
  else if mapped.2 ∨ env.relayMeta.ChannelType = ChannelType.Azure then
    env.marshalImageRequest canonical
  else
    .ok env.requestBody

/-- The request is answered with upstream HTTP 200: every step up to the gate
succeeds, the gate passes, and `DoRequest` returns a response with status 200. -/
def reachesSettlement (A : Arith) (env : Env A) : Prop :=
  ∃ p calls resp, prepare A env = (.ok p, calls) ∧
    ¬ sub64 (env.CacheGetUserQuota p.relayMeta.UserId) (pricing A env p).quota < 0 ∧
    p.adaptor.DoRequest p.relayMeta p.requestBody = .ok resp ∧ resp.StatusCode = 200

/-- The environment with the result of `DoResponse` and the elapsed time
replaced. -/
def withDoResponse {A : Arith} (env : Env A)
    (doResponse : Response → RelayMeta → Option ErrorWithStatusCode) (elapsed : Int) : Env A :=
  { env with
    useTimeSeconds := elapsed
    GetAdaptor := fun t => (env.GetAdaptor t).map fun a => { a with DoResponse := doResponse } }

/-- The prepared values with the adaptor's `DoResponse` replaced. -/
def setDoResponse {A : Arith}
    (doResponse : Response → RelayMeta → Option ErrorWithStatusCode) (p : Prepared A) :
    Prepared A :=
  { p with adaptor := { p.adaptor with DoResponse := doResponse } }

/-- The canonical request after model mapping: the decoded request carrying
the mapped model name. -/
def canonicalRequest {A : Arith} (env : Env A) (decoded : ImageRequest) : ImageRequest :=
  { decoded with
    Model := (env.GetMappedModelName decoded.Model env.relayMeta.ModelMapping).1 }

/-- The request context after model mapping: it records the original and the
mapped model name. -/
def requestMeta {A : Arith} (env : Env A) (decoded : ImageRequest) : RelayMeta :=
  { env.relayMeta with
    OriginModelName := decoded.Model
    ActualModelName := (env.GetMappedModelName decoded.Model env.relayMeta.ModelMapping).1 }

/-- The canonical request is serialised again: the model name was remapped or
the channel type is Azure. -/
def reserialised {A : Arith} (env : Env A) (decoded : ImageRequest) : Bool :=
  (env.GetMappedModelName decoded.Model env.relayMeta.ModelMapping).2 ||
    decide (env.relayMeta.ChannelType = ChannelType.Azure)

/-- The charge of the decoded request once its image cost ratio is known: the
pricing step on the tables, the token and the options, at the mapped name. -/
def chargeOf (A : Arith) (env : Env A) (decoded : ImageRequest) (imageCostRatio : A.F) : Int :=
  (computeQuota A (env.GetModelRatio (canonicalRequest env decoded).Model)
    (env.GetGroupRatio env.group) imageCostRatio decoded.N
    (env.GetTokenById env.relayMeta.TokenId).BillingEnabled
    (parseBool (env.OptionMap "BillingByRequestEnabled"))
    (parseBool (env.OptionMap "ModelRatioEnabled"))
    (env.GetModelRatio2 (canonicalRequest env decoded).Model) env.QuotaPerUnit).quota

/-- The float the default row converts with `int(x)`:
`ratio * sizeRatio * imageCostRatio * 1000` with `ratio = modelRatio * groupRatio`. -/
def defaultCost (A : Arith) (modelRatio groupRatio imageCostRatio : A.F) : A.F :=
  A.mul (A.mul (A.mul (A.mul modelRatio groupRatio) A.one) imageCostRatio) A.thousand

/-- No conversion `int(x)` of the pricing step leaves the range of `int`
(its result is not the out-of-range value `-2^63`), and the per-image cost
times `n` stays below `2^63`. -/
def noOverflow (A : Arith) (modelRatio groupRatio imageCostRatio : A.F) (n : Int)
    (modelRatio2 : Option A.F) (QuotaPerUnit : A.F) : Prop :=
  A.toInt (defaultCost A modelRatio groupRatio imageCostRatio) ≠ -2 ^ 63 ∧
  A.toInt (defaultCost A modelRatio groupRatio imageCostRatio) * n < 2 ^ 63 ∧
  ∀ r2, modelRatio2 = some r2 →
    A.toInt (A.mul (A.mul r2 groupRatio) QuotaPerUnit) ≠ -2 ^ 63 ∧
    A.toInt (A.mul (A.mul (A.mul r2 groupRatio) A.one) A.c500000) ≠ -2 ^ 63

/-- The sign laws hold of `f64`, with "not negative" read off the significand. -/
def f64SignLaws : SignLaws f64 where
  notNeg := fun x => 0 ≤ x.m
  mul_notNeg := by
    intro x y hx hy
    show 0 ≤ (x.m * y.m).sign * ((roundMant (x.m * y.m).natAbs).1 : Int)
    have h1 : 0 ≤ x.m * y.m := Int.mul_nonneg hx hy
    have h2 : 0 ≤ (x.m * y.m).sign := Int.sign_nonneg.mpr h1
    exact Int.mul_nonneg h2 (Int.ofNat_nonneg _)
  toInt_notNeg := by
    intro x hx
    show 0 ≤ F64.toInt x ∨ F64.toInt x = -2 ^ 63
    have ht : 0 ≤ (if 0 ≤ x.e then x.m * ((2 ^ x.e.toNat : Nat) : Int)
        else Int.tdiv x.m ((2 ^ (-x.e).toNat : Nat) : Int)) := by
      split
      · exact Int.mul_nonneg hx (Int.ofNat_nonneg _)
      · exact Int.tdiv_nonneg hx (Int.ofNat_nonneg _)
    unfold F64.toInt
    generalize (if 0 ≤ x.e then x.m * ((2 ^ x.e.toNat : Nat) : Int)
        else Int.tdiv x.m ((2 ^ (-x.e).toNat : Nat) : Int)) = t at ht
    simp only
    split
    · left; exact ht
    · right; rfl
  one_notNeg := by decide
  thousand_notNeg := by decide
  c500000_notNeg := by decide

/-! ## Concrete requests -/

/-- The float64 nearest to `0.04`. -/
def lit_0_04 : F64 := { m := 5764607523034235, e := -57, hm := by decide }

/-- The float64 nearest to `0.08`. -/
def lit_0_08 : F64 := { m := 5764607523034235, e := -56, hm := by decide }

/-- The float64 value of a small integer, possibly negative. -/
def F64.ofSmallInt (z : Int) (h : z.natAbs ≤ 2 ^ 53) : F64 := { m := z, e := 0, hm := h }

/-- An adaptor whose upstream answers 200 and whose response hand-off succeeds. -/
def okAdaptor : Adaptor where
  ConvertImageRequest := fun req => .ok ("native:" ++ req.Model)
  DoRequest := fun _ body => .ok { StatusCode := 200, Payload := body }
  DoResponse := fun _ _ => none

/-- Scenario S1: `dall-e-3`, `n = 2`, `1024x1024`, model ratio 20, group ratio
1.0, image cost ratio 0.04, both options unset, user quota 5000. -/
def envS1 : Env f64 where
  relayMeta :=
    { Mode := 0, UserId := 7, TokenId := 11, ChannelId := 3, ChannelType := .OpenAI,
      APIType := 0, ModelMapping := [], OriginModelName := "", ActualModelName := "" }
  channelName := "main"
  group := "default"
  tokenName := "key"
  ctxChannelId := 3
  requestBody := "raw"
  useTimeSeconds := 4
  getImageRequest :=
    .ok { Model := "dall-e-3", Prompt := "a cat", N := 2, Size := "1024x1024", Quality := "" }
  GetMappedModelName := fun name _ => (name, false)
  validateImageRequest := fun _ _ => none
  getImageCostRatio := fun _ => .ok lit_0_04
  marshalImageRequest := fun req => .ok ("json:" ++ req.Model)
  marshalConverted := fun c => .ok ("json:" ++ c)
  GetAdaptor := fun _ => some okAdaptor
  GetModelRatio := fun _ => F64.ofSmallNat 20 (by decide)
  GetGroupRatio := fun _ => F64.ofSmallNat 1 (by decide)
  GetModelRatio2 := fun _ => none
  QuotaPerUnit := F64.ofSmallNat 500000 (by decide)
  OptionMap := fun _ => ""
  CacheGetUserQuota := fun _ => 5000
  GetTokenById := fun id => { Id := id, Name := "key", BillingEnabled := false }

/-- The values `prepare` hands on for `envS1`. -/
def preparedS1 : Prepared f64 where
  imageRequest :=
    { Model := "dall-e-3", Prompt := "a cat", N := 2, Size := "1024x1024", Quality := "" }
  relayMeta :=
    { Mode := 0, UserId := 7, TokenId := 11, ChannelId := 3, ChannelType := .OpenAI,
      APIType := 0, ModelMapping := [], OriginModelName := "dall-e-3",
      ActualModelName := "dall-e-3" }
  isModelMapped := false
  imageCostRatio := lit_0_04
  requestBody := "raw"
  adaptor := okAdaptor

/-- Scenario S2: both options set, the token opted in, `ModelRatio2` 0.08. -/
def envS2 : Env f64 :=
  { envS1 with
    OptionMap := fun _ => "true"
    GetModelRatio2 := fun _ => some lit_0_08
    GetTokenById := fun id => { Id := id, Name := "key", BillingEnabled := true }
    CacheGetUserQuota := fun _ => 100000 }

/-- Scenario S3: only `BillingByRequestEnabled` set, `ModelRatio2` 0.08. -/
def envS3 : Env f64 :=
  { envS1 with
    OptionMap := fun k => if k = "BillingByRequestEnabled" then "true" else "false"
    GetModelRatio2 := fun _ => some lit_0_08
    CacheGetUserQuota := fun _ => 100000 }

/-- Scenario S4: the options of S2, but no `ModelRatio2` entry for the model. -/
def envS4 : Env f64 :=
  { envS1 with
    OptionMap := fun _ => "true"
    GetTokenById := fun id => { Id := id, Name := "key", BillingEnabled := true } }

/-- S1 with a negative entry `ModelRatio["dall-e-3"] = -20`. -/
def envNegative : Env f64 :=
  { envS1 with GetModelRatio := fun _ => F64.ofSmallInt (-20) (by decide) }

/-- S1 with `ModelRatio["dall-e-3"] = 0`: a model that costs nothing. -/
def envFree : Env f64 :=
  { envS1 with GetModelRatio := fun _ => F64.ofSmallNat 0 (by decide) }

/-- Scenario S5: S1 with a user quota of 100. -/
def envS5 : Env f64 :=
  { envS1 with CacheGetUserQuota := fun _ => 100 }

/-- An adaptor whose conversion fails. -/
def failingConvert : Adaptor :=
  { okAdaptor with ConvertImageRequest := fun _ => .error "unsupported size" }

/-- S5 on an Ali channel whose adaptor cannot convert the request. -/
def envAliFail : Env f64 :=
  { envS5 with
    relayMeta := { envS5.relayMeta with ChannelType := .Ali }
    GetAdaptor := fun _ => some failingConvert }

/-- S1 on an Ali channel. -/
def envAli : Env f64 :=
  { envS1 with relayMeta := { envS1.relayMeta with ChannelType := .Ali } }

/-- The values `prepare` hands on for `envAli`. -/
def preparedAli : Prepared f64 :=
  { preparedS1 with
    relayMeta := { preparedS1.relayMeta with ChannelType := .Ali }
    requestBody := "json:native:dall-e-3" }

/-- S1 with a response hand-off that fails. -/
def envRespFail : Env f64 :=
  withDoResponse envS1 (fun _ _ => some (ErrorWrapper "broken pipe" "bad_response" 500)) 4

/-- The values `prepare` hands on for `envRespFail`. -/
def preparedRespFail : Prepared f64 :=
  { preparedS1 with
    adaptor := { okAdaptor with
      DoResponse := fun _ _ => some (ErrorWrapper "broken pipe" "bad_response" 500) } }

/-- S5 on an Ali channel whose adaptor converts the request. -/
def envAliPoor : Env f64 :=
  { envS5 with relayMeta := { envS5.relayMeta with ChannelType := .Ali } }

/-- An adaptor whose upstream call fails in transport. -/
def failingTransport : Adaptor :=
  { okAdaptor with DoRequest := fun _ _ => .error "connection refused" }

/-- Scenario S6: S1 with an upstream transport error. -/
def envS6 : Env f64 :=
  { envS1 with GetAdaptor := fun _ => some failingTransport }

/-- S5 with no adaptor registered for the api type. -/
def envNoAdaptor : Env f64 :=
  { envS5 with GetAdaptor := fun _ => none }

/-- The request decoded in every scenario. -/
def requestS1 : ImageRequest :=
  { Model := "dall-e-3", Prompt := "a cat", N := 2, Size := "1024x1024", Quality := "" }

/-! ## Arithmetic lemmas -/

theorem wrap64_of_inRange (z : Int) (h1 : -2 ^ 63 ≤ z) (h2 : z < 2 ^ 63) : wrap64 z = z := by
  unfold wrap64
  norm_num at h1 h2 ⊢
  omega

theorem wrap64_range (z : Int) : -2 ^ 63 ≤ wrap64 z ∧ wrap64 z < 2 ^ 63 := by
  unfold wrap64
  norm_num
  omega

theorem wrap64_congr (a b c : Int) (h : a = b + 2 ^ 64 * c) : wrap64 a = wrap64 b := by
  unfold wrap64
  rw [h]
  have : b + 2 ^ 64 * c + 2 ^ 63 = b + 2 ^ 63 + 2 ^ 64 * c := by ring
  rw [this, Int.add_mul_emod_self_left]

theorem wrap64_decomp (z : Int) : ∃ c : Int, wrap64 z = z + 2 ^ 64 * c := by
  refine ⟨-((z + 2 ^ 63) / 2 ^ 64), ?_⟩
  unfold wrap64
  have := Int.emod_add_ediv (z + 2 ^ 63) (2 ^ 64)
  linarith

theorem mul64_wrap64_right (k t : Int) : mul64 k (wrap64 t) = mul64 k t := by
  obtain ⟨c, hc⟩ := wrap64_decomp t
  unfold mul64
  apply wrap64_congr _ _ (k * c)
  rw [hc]; ring

theorem mul64_one (t : Int) : mul64 t 1 = wrap64 t := by
  unfold mul64; rw [mul_one]

theorem sub64_self (q : Int) : sub64 q q = 0 := by
  unfold sub64; rw [sub_self]; unfold wrap64; norm_num

theorem f64_mulOne : f64.MulOne := by
  intro x
  obtain ⟨m, e, hm⟩ := x
  have hr : roundMant m.natAbs = (m.natAbs, 0) := by
    unfold roundMant
    rw [if_pos hm]
  show F64.mul ⟨m, e, hm⟩ (F64.ofSmallNat 1 (by norm_num)) = ⟨m, e, hm⟩
  simp only [F64.mul, F64.ofSmallNat, Nat.cast_one, mul_one, hr, Int.sign_mul_natAbs]
  simp

/-! ## The preparation steps -/

theorem prepare_ok {A : Arith} {env : Env A} {p : Prepared A} {calls : List (Event A)}
    (h : prepare A env = (.ok p, calls)) :
    ∃ decoded, env.getImageRequest = .ok decoded ∧
      p.imageRequest = { decoded with
        Model := (env.GetMappedModelName decoded.Model env.relayMeta.ModelMapping).1 } ∧
      p.relayMeta = { env.relayMeta with
        OriginModelName := decoded.Model
        ActualModelName := (env.GetMappedModelName decoded.Model env.relayMeta.ModelMapping).1 } ∧
      p.isModelMapped = (env.GetMappedModelName decoded.Model env.relayMeta.ModelMapping).2 ∧
      env.validateImageRequest p.imageRequest p.relayMeta = none ∧
      env.getImageCostRatio p.imageRequest = .ok p.imageCostRatio ∧
      env.GetAdaptor env.relayMeta.APIType = some p.adaptor ∧
      specBody env decoded p.adaptor = .ok p.requestBody ∧
      calls = (if transcoded env.relayMeta.ChannelType
        then [Event.ConvertImageRequest p.imageRequest] else []) := by
  unfold prepare at h
  split at h
  · simp at h
  · rename_i decoded hdec
    refine ⟨decoded, hdec, ?_⟩
    simp only at h
    split at h
    · simp at h
    · rename_i hval
      split at h
      · simp at h
      · rename_i icr hicr
        split at h
        · simp at h
        · rename_i body hbody
          split at h
          · simp at h
          · rename_i adaptor had
            split at h
            · rename_i hct
              split at h
              · simp at h
              · rename_i native hconv
                split at h
                · simp at h
                · rename_i jsonStr hjson
                  simp only [Prod.mk.injEq, Except.ok.injEq] at h
                  obtain ⟨hp, hc⟩ := h
                  subst hp
                  have ht : transcoded env.relayMeta.ChannelType = true := by
                    simpa [transcoded] using hct
                  refine ⟨rfl, rfl, rfl, hval, hicr, had, ?_, ?_⟩
                  · simp only [specBody, ht, if_true]
                    rw [hconv]
                    exact hjson
                  · simp [ht, hc.symm]
            · rename_i hct
              simp only [Prod.mk.injEq, Except.ok.injEq] at h
              obtain ⟨hp, hc⟩ := h
              subst hp
              have ht : transcoded env.relayMeta.ChannelType = false := by
                simpa [transcoded] using hct
              refine ⟨rfl, rfl, rfl, hval, hicr, had, ?_, ?_⟩
              · simp only [specBody, ht]
                simpa using hbody
              · simp [ht, hc.symm]

theorem prepare_calls {A : Arith} {env : Env A}
    {r : Except ErrorWithStatusCode (Prepared A)} {calls : List (Event A)}
    (h : prepare A env = (r, calls)) : ∀ e ∈ calls, e.isConvert = true := by
  unfold prepare at h
  simp only at h
  repeat' split at h
  all_goals
    simp only [Prod.mk.injEq] at h
    obtain ⟨-, rfl⟩ := h
    simp [Event.isConvert]

/-! ## The handler, path by path -/

theorem helper_prepare_error {A : Arith} {env : Env A} {e : ErrorWithStatusCode}
    {calls : List (Event A)} (h : prepare A env = (.error e, calls)) :
    RelayImageHelper A env = { result := some e, trace := calls } := by
  unfold RelayImageHelper; rw [h]

theorem helper_gate_reject {A : Arith} {env : Env A} {p : Prepared A}
    {calls : List (Event A)} (h : prepare A env = (.ok p, calls))
    (hq : sub64 (env.CacheGetUserQuota p.relayMeta.UserId) (pricing A env p).quota < 0) :
    RelayImageHelper A env =
      { result := some (ErrorWrapper "user quota is not enough" "insufficient_user_quota" 403)
        trace := calls } := by
  unfold RelayImageHelper; rw [h]; simp only [hq, if_true]

theorem helper_transport_error {A : Arith} {env : Env A} {p : Prepared A}
    {calls : List (Event A)} {err : Err} (h : prepare A env = (.ok p, calls))
    (hq : ¬ sub64 (env.CacheGetUserQuota p.relayMeta.UserId) (pricing A env p).quota < 0)
    (hd : p.adaptor.DoRequest p.relayMeta p.requestBody = .error err) :
    RelayImageHelper A env =
      { result := some (ErrorWrapper err "do_request_failed" 500)
        trace := calls ++ [Event.DoRequest p.relayMeta p.requestBody] } := by
  unfold RelayImageHelper; rw [h]; simp only [hq, if_false, hd]

theorem helper_answered {A : Arith} {env : Env A} {p : Prepared A}
    {calls : List (Event A)} {resp : Response} (h : prepare A env = (.ok p, calls))
    (hq : ¬ sub64 (env.CacheGetUserQuota p.relayMeta.UserId) (pricing A env p).quota < 0)
    (hd : p.adaptor.DoRequest p.relayMeta p.requestBody = .ok resp) :
    RelayImageHelper A env =
      { result := p.adaptor.DoResponse resp p.relayMeta
        trace := calls ++
          [Event.DoRequest p.relayMeta p.requestBody, Event.DoResponse resp p.relayMeta] ++
          settle A env p resp (pricing A env p) (env.GetGroupRatio env.group)
            (env.CacheGetUserQuota p.relayMeta.UserId) } := by
  unfold RelayImageHelper; rw [h]; simp only [hq, if_false, hd]

/-! ## Pricing -/

theorem computeQuota_eq_specQuota (A : Arith) (hA : A.MulOne)
    (modelRatio groupRatio imageCostRatio : A.F) (n : Int)
    (tokenBillingEnabled BillingByRequestEnabled ModelRatioEnabled : Bool)
    (modelRatio2 : Option A.F) (QuotaPerUnit : A.F) :
    (computeQuota A modelRatio groupRatio imageCostRatio n tokenBillingEnabled
      BillingByRequestEnabled ModelRatioEnabled modelRatio2 QuotaPerUnit).quota =
    specQuota A BillingByRequestEnabled ModelRatioEnabled tokenBillingEnabled modelRatio2
      modelRatio groupRatio QuotaPerUnit imageCostRatio n := by
  cases BillingByRequestEnabled <;> cases ModelRatioEnabled <;> cases tokenBillingEnabled <;>
    cases modelRatio2 <;> simp [computeQuota, specQuota, hA _]

theorem computeQuota_default (A : Arith)
    (modelRatio groupRatio imageCostRatio : A.F) (n : Int)
    (tokenBillingEnabled BillingByRequestEnabled ModelRatioEnabled : Bool)
    (modelRatio2 : Option A.F) (QuotaPerUnit : A.F)
    (hrow : perRequestRow BillingByRequestEnabled ModelRatioEnabled tokenBillingEnabled
      modelRatio2.isSome = false) :
    (computeQuota A modelRatio groupRatio imageCostRatio n tokenBillingEnabled
      BillingByRequestEnabled ModelRatioEnabled modelRatio2 QuotaPerUnit).quota =
    mul64 (A.toInt (defaultCost A modelRatio groupRatio imageCostRatio)) n := by
  cases BillingByRequestEnabled <;> cases ModelRatioEnabled <;> cases tokenBillingEnabled <;>
    cases modelRatio2 <;> simp [perRequestRow] at hrow <;> simp [computeQuota, defaultCost]

theorem computeQuota_flat (A : Arith)
    (modelRatio groupRatio imageCostRatio : A.F) (n : Int)
    (tokenBillingEnabled BillingByRequestEnabled ModelRatioEnabled : Bool)
    (modelRatio2 : Option A.F) (QuotaPerUnit : A.F)
    (hrow : perRequestRow BillingByRequestEnabled ModelRatioEnabled tokenBillingEnabled
      modelRatio2.isSome = true) :
    ∃ r2, modelRatio2 = some r2 ∧
      (computeQuota A modelRatio groupRatio imageCostRatio n tokenBillingEnabled
        BillingByRequestEnabled ModelRatioEnabled modelRatio2 QuotaPerUnit).quota =
      (if ModelRatioEnabled then A.toInt (A.mul (A.mul r2 groupRatio) QuotaPerUnit)
       else A.toInt (A.mul (A.mul (A.mul r2 groupRatio) A.one) A.c500000)) := by
  cases BillingByRequestEnabled <;> cases ModelRatioEnabled <;> cases tokenBillingEnabled <;>
    cases modelRatio2 <;> simp [perRequestRow] at hrow <;> simp [computeQuota]

/-- C1: for every request that reaches pricing, the quota computed by the
handler equals the first-match pricing table of the specification, read at the
mapped model name `m`: the `QuotaPerUnit` row when both options and the token
flag are set and `ModelRatio2[m]` is present, the `500000` row when only
`BillingByRequestEnabled` is set and `ModelRatio2[m]` is present, and otherwise
`int(modelRatio * groupRatio * 1 * imageCostRatio * 1000) * n`.  The image cost
ratio is the one looked up for the request carrying the mapped name. -/
theorem pricing_matches_table (A : Arith) (hA : A.MulOne) (env : Env A) (p : Prepared A)
    (calls : List (Event A)) (decoded : ImageRequest)
    (hprep : prepare A env = (.ok p, calls)) (hdec : env.getImageRequest = .ok decoded) :
    env.getImageCostRatio { decoded with
        Model := (env.GetMappedModelName decoded.Model env.relayMeta.ModelMapping).1 } =
      .ok p.imageCostRatio ∧
    (pricing A env p).quota =
      specQuota A (parseBool (env.OptionMap "BillingByRequestEnabled"))
        (parseBool (env.OptionMap "ModelRatioEnabled"))
        (env.GetTokenById env.relayMeta.TokenId).BillingEnabled
        (env.GetModelRatio2 (env.GetMappedModelName decoded.Model env.relayMeta.ModelMapping).1)
        (env.GetModelRatio (env.GetMappedModelName decoded.Model env.relayMeta.ModelMapping).1)
        (env.GetGroupRatio env.group) env.QuotaPerUnit p.imageCostRatio decoded.N := by
  obtain ⟨d, hd, hreq, hmeta, -, -, hicr, -, -, -⟩ := prepare_ok hprep
  rw [hdec] at hd
  cases hd
  refine ⟨by rw [← hreq]; exact hicr, ?_⟩
  unfold pricing
  simp only [hreq, hmeta]
  exact computeQuota_eq_specQuota A hA _ _ _ _ _ _ _ _ _

/-- Witness of C1 on scenario S1 with binary64 arithmetic: the handler's quota
is the table's value, which is 1600. -/
theorem pricing_matches_table_witness :
    (pricing f64 envS1 preparedS1).quota =
      specQuota f64 false false false none (F64.ofSmallNat 20 (by decide))
        (F64.ofSmallNat 1 (by decide)) (F64.ofSmallNat 500000 (by decide)) lit_0_04 2 ∧
    specQuota f64 false false false none (F64.ofSmallNat 20 (by decide))
        (F64.ofSmallNat 1 (by decide)) (F64.ofSmallNat 500000 (by decide)) lit_0_04 2 = 1600 :=
  ⟨(pricing_matches_table f64 f64_mulOne envS1 preparedS1 []
      { Model := "dall-e-3", Prompt := "a cat", N := 2, Size := "1024x1024", Quality := "" }
      rfl rfl).2, by decide⟩

/-- Scenarios S2 and S3 are charged 40000; S4 is charged by the default row;
S6 is answered `do_request_failed` (500) after one `DoRequest` call. -/
theorem scenarios_S2_S3_S4_S6 :
    tokenDebits (RelayImageHelper f64 envS2).trace = [40000] ∧
    tokenDebits (RelayImageHelper f64 envS3).trace = [40000] ∧
    tokenDebits (RelayImageHelper f64 envS4).trace = [1600] ∧
    (RelayImageHelper f64 envS6).result =
      some (ErrorWrapper "connection refused" "do_request_failed" 500) ∧
    doRequestBodies (RelayImageHelper f64 envS6).trace = ["raw"] ∧
    (RelayImageHelper f64 envS6).trace.any Event.isBillingWrite = false := by decide

/-- C5: in the default pricing mode (no per-request row applies), for every
`k ≥ 1` the quota for `n = k` is `k` times the quota for `n = 1`, the product
being that of Go `int`; whenever that product stays in the range of `int` it
is the exact integer product. -/
theorem default_quota_linear (A : Arith) (modelRatio groupRatio imageCostRatio : A.F)
    (tokenBillingEnabled BillingByRequestEnabled ModelRatioEnabled : Bool)
    (modelRatio2 : Option A.F) (QuotaPerUnit : A.F) (k : Int) (hk : 1 ≤ k)
    (hrow : perRequestRow BillingByRequestEnabled ModelRatioEnabled tokenBillingEnabled
      modelRatio2.isSome = false) :
    (computeQuota A modelRatio groupRatio imageCostRatio k tokenBillingEnabled
        BillingByRequestEnabled ModelRatioEnabled modelRatio2 QuotaPerUnit).quota =
      mul64 k (computeQuota A modelRatio groupRatio imageCostRatio 1 tokenBillingEnabled
        BillingByRequestEnabled ModelRatioEnabled modelRatio2 QuotaPerUnit).quota ∧
    (-2 ^ 63 ≤ k * (computeQuota A modelRatio groupRatio imageCostRatio 1 tokenBillingEnabled
        BillingByRequestEnabled ModelRatioEnabled modelRatio2 QuotaPerUnit).quota ∧
      k * (computeQuota A modelRatio groupRatio imageCostRatio 1 tokenBillingEnabled
        BillingByRequestEnabled ModelRatioEnabled modelRatio2 QuotaPerUnit).quota < 2 ^ 63 →
      (computeQuota A modelRatio groupRatio imageCostRatio k tokenBillingEnabled
        BillingByRequestEnabled ModelRatioEnabled modelRatio2 QuotaPerUnit).quota =
      k * (computeQuota A modelRatio groupRatio imageCostRatio 1 tokenBillingEnabled
        BillingByRequestEnabled ModelRatioEnabled modelRatio2 QuotaPerUnit).quota) := by
  have _ := hk
  rw [computeQuota_default A modelRatio groupRatio imageCostRatio k _ _ _ _ _ hrow,
    computeQuota_default A modelRatio groupRatio imageCostRatio 1 _ _ _ _ _ hrow]
  have h1 : mul64 (A.toInt (defaultCost A modelRatio groupRatio imageCostRatio)) k =
      mul64 k (mul64 (A.toInt (defaultCost A modelRatio groupRatio imageCostRatio)) 1) := by
    rw [mul64_one, mul64_wrap64_right]
    unfold mul64
    rw [mul_comm]
  refine ⟨h1, ?_⟩
  rintro ⟨hlo, hhi⟩
  rw [h1]
  exact wrap64_of_inRange _ hlo hhi

/-- Witness of C5: scenario S1 priced for three images is three times the
price of one image, 2400 against 800. -/
theorem default_quota_linear_witness :
    (computeQuota f64 (F64.ofSmallNat 20 (by decide)) f64.one lit_0_04 3 false false false
        none f64.c500000).quota =
      mul64 3 (computeQuota f64 (F64.ofSmallNat 20 (by decide)) f64.one lit_0_04 1 false false
        false none f64.c500000).quota ∧
    (computeQuota f64 (F64.ofSmallNat 20 (by decide)) f64.one lit_0_04 3 false false false
        none f64.c500000).quota =
      3 * (computeQuota f64 (F64.ofSmallNat 20 (by decide)) f64.one lit_0_04 1 false false
        false none f64.c500000).quota ∧
    (computeQuota f64 (F64.ofSmallNat 20 (by decide)) f64.one lit_0_04 3 false false false
        none f64.c500000).quota = 2400 :=
  have h := default_quota_linear f64 (F64.ofSmallNat 20 (by decide)) f64.one lit_0_04
    false false false none f64.c500000 3 (by decide) (by decide)
  ⟨h.1, h.2 (by decide), by decide⟩

/-- C10: when a per-request row applies, the quota is the conversion of
`ModelRatio2[m] * groupRatio * QuotaPerUnit` (both options set) or of
`ModelRatio2[m] * groupRatio * 1 * 500000` (only `BillingByRequestEnabled`
set), and it is the same for every `n`, every image cost ratio and every
`ModelRatio[m]`. -/
theorem flat_quota_independent (A : Arith) (groupRatio QuotaPerUnit : A.F)
    (tokenBillingEnabled BillingByRequestEnabled ModelRatioEnabled : Bool)
    (modelRatio2 : Option A.F)
    (hrow : perRequestRow BillingByRequestEnabled ModelRatioEnabled tokenBillingEnabled
      modelRatio2.isSome = true)
    (modelRatio modelRatioB imageCostRatio imageCostRatioB : A.F) (n nB : Int) :
    (computeQuota A modelRatio groupRatio imageCostRatio n tokenBillingEnabled
        BillingByRequestEnabled ModelRatioEnabled modelRatio2 QuotaPerUnit).quota =
      (computeQuota A modelRatioB groupRatio imageCostRatioB nB tokenBillingEnabled
        BillingByRequestEnabled ModelRatioEnabled modelRatio2 QuotaPerUnit).quota ∧
    ∃ r2, modelRatio2 = some r2 ∧
      (computeQuota A modelRatio groupRatio imageCostRatio n tokenBillingEnabled
        BillingByRequestEnabled ModelRatioEnabled modelRatio2 QuotaPerUnit).quota =
      (if ModelRatioEnabled then A.toInt (A.mul (A.mul r2 groupRatio) QuotaPerUnit)
       else A.toInt (A.mul (A.mul (A.mul r2 groupRatio) A.one) A.c500000)) := by
  obtain ⟨r2, hr2, hq⟩ := computeQuota_flat A modelRatio groupRatio imageCostRatio n _ _ _ _
    QuotaPerUnit hrow
  obtain ⟨r2B, hr2B, hqB⟩ := computeQuota_flat A modelRatioB groupRatio imageCostRatioB nB _ _ _ _
    QuotaPerUnit hrow
  rw [hr2] at hr2B
  cases hr2B
  exact ⟨by rw [hq, hqB], r2, hr2, hq⟩

/-- Witness of C10: with the options of scenario S2, ten images at model ratio
20 cost what one image costs at model ratio 1. -/
theorem flat_quota_independent_witness :
    (computeQuota f64 (F64.ofSmallNat 20 (by decide)) f64.one lit_0_04 10 true true true
        (some lit_0_08) f64.c500000).quota =
      (computeQuota f64 f64.one f64.one f64.one 1 true true true
        (some lit_0_08) f64.c500000).quota :=
  (flat_quota_independent f64 f64.one f64.c500000 true true true (some lit_0_08) (by decide)
    (F64.ofSmallNat 20 (by decide)) f64.one lit_0_04 f64.one 10 1).1

/-- C8, as stated, fails: scenario S1 with `ModelRatio["dall-e-3"] = -20` reaches
the gate with `n = 2` and a positive `QuotaPerUnit`, and is charged -1600. -/
theorem negative_ratio_negative_quota :
    prepare f64 envNegative = (.ok preparedS1, []) ∧ 0 < preparedS1.imageRequest.N ∧
      0 < envNegative.QuotaPerUnit.m ∧
      (pricing f64 envNegative preparedS1).quota = -1600 ∧
      ¬ 0 ≤ (pricing f64 envNegative preparedS1).quota :=
  ⟨rfl, by decide, by decide, by decide, by decide⟩

/-- C8, amended: when `ModelRatio[m]`, `GroupRatio[group]`, the image cost
ratio, `ModelRatio2[m]` (if present) and `QuotaPerUnit` are not negative,
`n ≥ 0`, and neither a conversion `int(x)` nor the multiplication by `n`
overflows, the quota is `≥ 0`. -/
theorem quota_nonneg_of_notNeg (A : Arith) (L : SignLaws A)
    (modelRatio groupRatio imageCostRatio : A.F) (n : Int)
    (tokenBillingEnabled BillingByRequestEnabled ModelRatioEnabled : Bool)
    (modelRatio2 : Option A.F) (QuotaPerUnit : A.F)
    (hmr : L.notNeg modelRatio) (hgr : L.notNeg groupRatio) (hicr : L.notNeg imageCostRatio)
    (hmr2 : ∀ r2, modelRatio2 = some r2 → L.notNeg r2) (hqpu : L.notNeg QuotaPerUnit)
    (hn : 0 ≤ n)
    (hov : noOverflow A modelRatio groupRatio imageCostRatio n modelRatio2 QuotaPerUnit) :
    0 ≤ (computeQuota A modelRatio groupRatio imageCostRatio n tokenBillingEnabled
      BillingByRequestEnabled ModelRatioEnabled modelRatio2 QuotaPerUnit).quota := by
  obtain ⟨hov1, hov2, hov3⟩ := hov
  cases hrow : perRequestRow BillingByRequestEnabled ModelRatioEnabled tokenBillingEnabled
      modelRatio2.isSome
  · rw [computeQuota_default A _ _ _ _ _ _ _ _ _ hrow]
    have hc : L.notNeg (defaultCost A modelRatio groupRatio imageCostRatio) :=
      L.mul_notNeg _ _ (L.mul_notNeg _ _ (L.mul_notNeg _ _ (L.mul_notNeg _ _ hmr hgr)
        L.one_notNeg) hicr) L.thousand_notNeg
    have ht : 0 ≤ A.toInt (defaultCost A modelRatio groupRatio imageCostRatio) := by
      rcases L.toInt_notNeg _ hc with h | h
      · exact h
      · exact absurd h hov1
    have hprod : 0 ≤ A.toInt (defaultCost A modelRatio groupRatio imageCostRatio) * n :=
      Int.mul_nonneg ht hn
    unfold mul64
    rw [wrap64_of_inRange _ (le_trans (by norm_num) hprod) hov2]
    exact hprod
  · obtain ⟨r2, hr2, hq⟩ := computeQuota_flat A modelRatio groupRatio imageCostRatio n _ _ _ _
      QuotaPerUnit hrow
    rw [hq]
    obtain ⟨ha, hb⟩ := hov3 r2 hr2
    have hr : L.notNeg (A.mul r2 groupRatio) := L.mul_notNeg _ _ (hmr2 r2 hr2) hgr
    split
    · rcases L.toInt_notNeg _ (L.mul_notNeg _ _ hr hqpu) with h | h
      · exact h
      · exact absurd h ha
    · rcases L.toInt_notNeg _ (L.mul_notNeg _ _ (L.mul_notNeg _ _ hr L.one_notNeg)
        L.c500000_notNeg) with h | h
      · exact h
      · exact absurd h hb

/-- Witness of C8 (amended) on the values of scenario S1. -/
theorem quota_nonneg_of_notNeg_witness :
    0 ≤ (computeQuota f64 (F64.ofSmallNat 20 (by decide)) f64.one lit_0_04 2 false false false
      none f64.c500000).quota :=
  quota_nonneg_of_notNeg f64 f64SignLaws (F64.ofSmallNat 20 (by decide)) f64.one lit_0_04 2
    false false false none f64.c500000
    (show (0 : Int) ≤ 20 by decide) (show (0 : Int) ≤ 1 by decide)
    (show (0 : Int) ≤ 5764607523034235 by decide) (by intro r2 h; cases h)
    (show (0 : Int) ≤ 500000 by decide) (by decide)
    ⟨by decide, by decide, by intro r2 h; cases h⟩

/-! ## Traces of the handler -/

theorem convert_only_nil {A : Arith} {β : Type} (f : Event A → Option β)
    (hf : ∀ req, f (Event.ConvertImageRequest req) = none) {calls : List (Event A)}
    (h : ∀ e ∈ calls, e.isConvert = true) : calls.filterMap f = [] := by
  rw [List.filterMap_eq_nil_iff]
  intro e he
  have hc := h e he
  cases e <;> simp [Event.isConvert] at hc
  exact hf _

theorem convert_only_not_billing {A : Arith} {calls : List (Event A)}
    (h : ∀ e ∈ calls, e.isConvert = true) : ∀ e ∈ calls, e.isBillingWrite = false := by
  intro e he
  have hc := h e he
  cases e <;> simp [Event.isConvert] at hc
  rfl

theorem doRequest_once {A : Arith} {env : Env A} {p : Prepared A} {calls : List (Event A)}
    (hprep : prepare A env = (.ok p, calls))
    (hq : ¬ sub64 (env.CacheGetUserQuota p.relayMeta.UserId) (pricing A env p).quota < 0) :
    doRequestBodies (RelayImageHelper A env).trace = [p.requestBody] := by
  have hcalls : doRequestBodies calls = [] :=
    convert_only_nil _ (fun _ => rfl) (prepare_calls hprep)
  cases hd : p.adaptor.DoRequest p.relayMeta p.requestBody with
  | error err =>
    rw [helper_transport_error hprep hq hd]
    simp only [doRequestBodies, List.filterMap_append] at hcalls ⊢
    rw [hcalls]; rfl
  | ok resp =>
    rw [helper_answered hprep hq hd]
    simp only [doRequestBodies, List.filterMap_append] at hcalls ⊢
    rw [hcalls]
    have hs : List.filterMap (fun e : Event A => match e with
        | .DoRequest _ body => some body
        | _ => none)
        (settle A env p resp (pricing A env p) (env.GetGroupRatio env.group)
          (env.CacheGetUserQuota p.relayMeta.UserId)) = [] := by
      unfold settle
      split
      · rfl
      · split <;> rfl
    rw [hs]; rfl

/-- C2: for a request that reaches the quota gate, the handler returns
`insufficient_user_quota` (403) without calling `DoRequest` exactly when
`userQuota - quota < 0` (the subtraction of Go `int`); otherwise, also when
`userQuota = quota`, `DoRequest` is called once, with the selected body.  When
the subtraction does not overflow the test is `userQuota - quota < 0` over the
integers. -/
theorem quota_gate (A : Arith) (env : Env A) (p : Prepared A) (calls : List (Event A))
    (hprep : prepare A env = (.ok p, calls)) :
    (((RelayImageHelper A env).result =
          some (ErrorWrapper "user quota is not enough" "insufficient_user_quota" 403) ∧
        doRequestBodies (RelayImageHelper A env).trace = []) ↔
      sub64 (env.CacheGetUserQuota p.relayMeta.UserId) (pricing A env p).quota < 0) ∧
    (¬ sub64 (env.CacheGetUserQuota p.relayMeta.UserId) (pricing A env p).quota < 0 →
      doRequestBodies (RelayImageHelper A env).trace = [p.requestBody]) ∧
    (env.CacheGetUserQuota p.relayMeta.UserId = (pricing A env p).quota →
      doRequestBodies (RelayImageHelper A env).trace = [p.requestBody]) ∧
    (-2 ^ 63 ≤ env.CacheGetUserQuota p.relayMeta.UserId - (pricing A env p).quota →
      env.CacheGetUserQuota p.relayMeta.UserId - (pricing A env p).quota < 2 ^ 63 →
      (sub64 (env.CacheGetUserQuota p.relayMeta.UserId) (pricing A env p).quota < 0 ↔
        env.CacheGetUserQuota p.relayMeta.UserId - (pricing A env p).quota < 0)) := by
  have hcalls : doRequestBodies calls = [] :=
    convert_only_nil _ (fun _ => rfl) (prepare_calls hprep)
  have hpass := fun hq => doRequest_once hprep hq
  refine ⟨⟨?_, ?_⟩, hpass, ?_, ?_⟩
  · rintro ⟨-, hnone⟩
    by_contra hq
    rw [hpass hq] at hnone
    cases hnone
  · intro hq
    rw [helper_gate_reject hprep hq]
    exact ⟨rfl, hcalls⟩
  · intro heq
    apply hpass
    rw [heq, sub64_self]
    decide
  · intro hlo hhi
    unfold sub64
    rw [wrap64_of_inRange _ hlo hhi]

/-- Witness of C2 on scenario S5: with a user quota of 100 and a charge of
1600 the request is rejected with 403 and `DoRequest` is not called. -/
theorem quota_gate_witness :
    sub64 (envS5.CacheGetUserQuota preparedS1.relayMeta.UserId)
        (pricing f64 envS5 preparedS1).quota < 0 ∧
      (RelayImageHelper f64 envS5).result =
        some (ErrorWrapper "user quota is not enough" "insufficient_user_quota" 403) ∧
      doRequestBodies (RelayImageHelper f64 envS5).trace = [] :=
  ⟨by decide, (quota_gate f64 envS5 preparedS1 [] rfl).1.mpr (by decide)⟩

/-- C3, as stated, fails: scenario S1 with a model ratio of 0 reaches settlement
(upstream 200) with a quota of 0; the token debit is made, and none of
`RecordConsumeLog`, `UpdateUserUsedQuotaAndRequestCount` and
`UpdateChannelUsedQuota` is called. -/
theorem free_request_skips_writes :
    prepare f64 envFree = (.ok preparedS1, []) ∧
    ¬ sub64 (envFree.CacheGetUserQuota preparedS1.relayMeta.UserId)
        (pricing f64 envFree preparedS1).quota < 0 ∧
    preparedS1.adaptor.DoRequest preparedS1.relayMeta preparedS1.requestBody =
      .ok { StatusCode := 200, Payload := "raw" } ∧
    (pricing f64 envFree preparedS1).quota = 0 ∧
    tokenDebits (RelayImageHelper f64 envFree).trace = [0] ∧
    logQuotas (RelayImageHelper f64 envFree).trace = [] ∧
    userUpdates (RelayImageHelper f64 envFree).trace = [] ∧
    channelUpdates (RelayImageHelper f64 envFree).trace = [] :=
  ⟨rfl, by decide, rfl, by decide, by decide, by decide, by decide, by decide⟩

theorem answered_200_writes (A : Arith) (env : Env A) (p : Prepared A) (calls : List (Event A))
    (resp : Response) (hprep : prepare A env = (.ok p, calls))
    (hgate : ¬ sub64 (env.CacheGetUserQuota p.relayMeta.UserId) (pricing A env p).quota < 0)
    (hdo : p.adaptor.DoRequest p.relayMeta p.requestBody = .ok resp)
    (h200 : resp.StatusCode = 200) :
    tokenDebits (RelayImageHelper A env).trace = [(pricing A env p).quota] ∧
    cacheRefreshes (RelayImageHelper A env).trace = [p.relayMeta.UserId] ∧
    ((pricing A env p).quota ≠ 0 →
      logQuotas (RelayImageHelper A env).trace = [(pricing A env p).quota] ∧
      userUpdates (RelayImageHelper A env).trace = [(pricing A env p).quota] ∧
      channelUpdates (RelayImageHelper A env).trace = [(pricing A env p).quota]) ∧
    ((pricing A env p).quota = 0 →
      logQuotas (RelayImageHelper A env).trace = [] ∧
      userUpdates (RelayImageHelper A env).trace = [] ∧
      channelUpdates (RelayImageHelper A env).trace = []) := by
  have hc := prepare_calls hprep
  have c1 : tokenDebits calls = [] := convert_only_nil _ (fun _ => rfl) hc
  have c2 : cacheRefreshes calls = [] := convert_only_nil _ (fun _ => rfl) hc
  have c3 : logQuotas calls = [] := convert_only_nil _ (fun _ => rfl) hc
  have c4 : userUpdates calls = [] := convert_only_nil _ (fun _ => rfl) hc
  have c5 : channelUpdates calls = [] := convert_only_nil _ (fun _ => rfl) hc
  rw [helper_answered hprep hgate hdo]
  simp only [tokenDebits, cacheRefreshes, logQuotas, userUpdates, channelUpdates,
    List.filterMap_append] at c1 c2 c3 c4 c5 ⊢
  rw [c1, c2, c3, c4, c5]
  unfold settle
  simp only [h200, ne_eq, not_true_eq_false, if_false]
  refine ⟨?_, ?_, ?_, ?_⟩
  · split <;> rfl
  · split <;> rfl
  · intro hq
    simp only [hq, not_false_eq_true, if_true]
    exact ⟨rfl, rfl, rfl⟩
  · intro hq
    simp only [hq, not_true_eq_false, if_false]
    exact ⟨rfl, rfl, rfl⟩

/-- C3, amended: for a request that reaches settlement (`DoRequest` returned a
response with status 200), `PostConsumeTokenQuota` and `CacheUpdateUserQuota`
are each called exactly once, the former with the computed quota; when the
quota is not 0, `RecordConsumeLog`, `UpdateUserUsedQuotaAndRequestCount` and
`UpdateChannelUsedQuota` are each called exactly once with that same quota;
when the quota is 0 these three are not called. -/
theorem settlement_writes (A : Arith) (env : Env A) (p : Prepared A) (calls : List (Event A))
    (resp : Response) (hprep : prepare A env = (.ok p, calls))
    (hgate : ¬ sub64 (env.CacheGetUserQuota p.relayMeta.UserId) (pricing A env p).quota < 0)
    (hdo : p.adaptor.DoRequest p.relayMeta p.requestBody = .ok resp)
    (h200 : resp.StatusCode = 200) :
    tokenDebits (RelayImageHelper A env).trace = [(pricing A env p).quota] ∧
    cacheRefreshes (RelayImageHelper A env).trace = [p.relayMeta.UserId] ∧
    ((pricing A env p).quota ≠ 0 →
      logQuotas (RelayImageHelper A env).trace = [(pricing A env p).quota] ∧
      userUpdates (RelayImageHelper A env).trace = [(pricing A env p).quota] ∧
      channelUpdates (RelayImageHelper A env).trace = [(pricing A env p).quota]) ∧
    ((pricing A env p).quota = 0 →
      logQuotas (RelayImageHelper A env).trace = [] ∧
      userUpdates (RelayImageHelper A env).trace = [] ∧
      channelUpdates (RelayImageHelper A env).trace = []) :=
  answered_200_writes A env p calls resp hprep hgate hdo h200

/-- Witness of C3 (amended) on scenario S1: each of the four writes carries 1600. -/
theorem settlement_writes_witness :
    tokenDebits (RelayImageHelper f64 envS1).trace = [1600] ∧
    logQuotas (RelayImageHelper f64 envS1).trace = [1600] ∧
    userUpdates (RelayImageHelper f64 envS1).trace = [1600] ∧
    channelUpdates (RelayImageHelper f64 envS1).trace = [1600] :=
  have h := settlement_writes f64 envS1 preparedS1 []
    { StatusCode := 200, Payload := "raw" } rfl (by decide) rfl rfl
  have hq : (pricing f64 envS1 preparedS1).quota = 1600 := by decide
  ⟨hq ▸ h.1, hq ▸ (h.2.2.1 (by decide)).1, hq ▸ (h.2.2.1 (by decide)).2.1,
    hq ▸ (h.2.2.1 (by decide)).2.2⟩

/-- C4: for every request that is rejected or not answered with upstream 200
(every path other than "all steps succeed, the gate passes and `DoRequest`
returns status 200"), none of the five settlement writes is called. -/
theorem no_bill_on_reject (A : Arith) (env : Env A) (h : ¬ reachesSettlement A env) :
    ∀ e ∈ (RelayImageHelper A env).trace, e.isBillingWrite = false := by
  cases hprep : prepare A env with
  | mk r calls =>
    have hc := convert_only_not_billing (prepare_calls hprep)
    cases r with
    | error e =>
      rw [helper_prepare_error hprep]
      exact hc
    | ok p =>
      by_cases hq : sub64 (env.CacheGetUserQuota p.relayMeta.UserId) (pricing A env p).quota < 0
      · rw [helper_gate_reject hprep hq]
        exact hc
      · cases hd : p.adaptor.DoRequest p.relayMeta p.requestBody with
        | error err =>
          rw [helper_transport_error hprep hq hd]
          intro e he
          simp only [List.mem_append, List.mem_singleton] at he
          rcases he with he | rfl
          · exact hc e he
          · rfl
        | ok resp =>
          have h200 : resp.StatusCode ≠ 200 := fun h200 => h ⟨p, calls, resp, hprep, hq, hd, h200⟩
          rw [helper_answered hprep hq hd]
          intro e he
          simp only [settle, h200, ne_eq, not_false_eq_true, if_true, List.append_nil,
            List.mem_append, List.mem_cons, List.mem_singleton, List.not_mem_nil, or_false] at he
          rcases he with he | rfl | rfl
          · exact hc e he
          · rfl
          · rfl

/-- Witness of C4 on scenario S5 (rejected at the gate): the trace holds no
settlement write. -/
theorem no_bill_on_reject_witness :
    (RelayImageHelper f64 envS5).trace.any Event.isBillingWrite = false := by
  have hrej : ¬ reachesSettlement f64 envS5 := by
    rintro ⟨p, calls, resp, hp, hg, -, -⟩
    have h0 : prepare f64 envS5 = (.ok preparedS1, []) := rfl
    rw [h0] at hp
    simp only [Prod.mk.injEq, Except.ok.injEq] at hp
    obtain ⟨rfl, -⟩ := hp
    exact hg (by decide)
  rw [List.any_eq_false]
  intro e he
  rw [no_bill_on_reject f64 envS5 hrej e he]
  decide

theorem prepare_withDoResponse {A : Arith} (env : Env A)
    (f : Response → RelayMeta → Option ErrorWithStatusCode) (t : Int) :
    prepare A (withDoResponse env f t) =
      ((prepare A env).1.map (setDoResponse f), (prepare A env).2) := by
  unfold prepare
  simp only [withDoResponse]
  cases env.getImageRequest with
  | error err => rfl
  | ok decoded =>
    simp only
    split
    · rfl
    · split
      · rfl
      · split
        · rename_i h3
          first
            | rfl
            | (simp only [h3]; rfl)
        · rename_i h3
          try simp only [h3]
          cases env.GetAdaptor env.relayMeta.APIType with
          | none => rfl
          | some adaptor =>
            simp only [Option.map]
            split
            · split
              · rfl
              · split <;> rfl
            · rfl

theorem settle_eraseTime {A : Arith} (env : Env A)
    (f : Response → RelayMeta → Option ErrorWithStatusCode) (t : Int) (p : Prepared A)
    (resp : Response) (priced : Priced A) (groupRatio : A.F) (userQuota : Int) :
    (settle A (withDoResponse env f t) (setDoResponse f p) resp priced groupRatio userQuota).map
        Event.eraseTime =
      (settle A env p resp priced groupRatio userQuota).map Event.eraseTime := by
  unfold settle
  split
  · rfl
  · split <;> rfl

theorem convert_only_eraseTime {A : Arith} {calls : List (Event A)}
    (h : ∀ e ∈ calls, e.isConvert = true) : calls.map Event.eraseTime = calls := by
  conv_rhs => rw [← List.map_id calls]
  apply List.map_congr_left
  intro e he
  have hc := h e he
  cases e <;> simp [Event.isConvert] at hc
  rfl

theorem trace_withDoResponse {A : Arith} (env : Env A)
    (f : Response → RelayMeta → Option ErrorWithStatusCode) (t : Int) :
    (RelayImageHelper A (withDoResponse env f t)).trace.map Event.eraseTime =
      (RelayImageHelper A env).trace.map Event.eraseTime := by
  have hw := prepare_withDoResponse env f t
  cases hprep : prepare A env with
  | mk r calls =>
    rw [hprep] at hw
    cases r with
    | error e =>
      rw [helper_prepare_error hprep, helper_prepare_error hw]
    | ok p =>
      have hw2 : prepare A (withDoResponse env f t) = (.ok (setDoResponse f p), calls) := hw
      by_cases hq : sub64 (env.CacheGetUserQuota p.relayMeta.UserId) (pricing A env p).quota < 0
      · rw [helper_gate_reject hprep hq, helper_gate_reject hw2 hq]
      · cases hd : p.adaptor.DoRequest p.relayMeta p.requestBody with
        | error err =>
          rw [helper_transport_error hprep hq hd, helper_transport_error hw2 hq hd]
          rfl
        | ok resp =>
          rw [helper_answered hprep hq hd, helper_answered hw2 hq hd]
          simp only [List.map_append]
          rw [show pricing A (withDoResponse env f t) (setDoResponse f p) = pricing A env p from rfl]
          rw [show (withDoResponse env f t).GetGroupRatio (withDoResponse env f t).group =
            env.GetGroupRatio env.group from rfl]
          rw [show (withDoResponse env f t).CacheGetUserQuota (setDoResponse f p).relayMeta.UserId =
            env.CacheGetUserQuota p.relayMeta.UserId from rfl]
          rw [settle_eraseTime]
          rfl

/-- C6: the calls of the handler, and in particular the settlement writes with
all their arguments but the elapsed time, are the same whatever `DoResponse`
returns; and when `DoRequest` returned status 200 and `DoResponse` then fails,
the handler returns that error and the token is still debited the quota. -/
theorem settlement_ignores_response (A : Arith) (env : Env A)
    (f g : Response → RelayMeta → Option ErrorWithStatusCode) (t u : Int) :
    (RelayImageHelper A (withDoResponse env f t)).trace.map Event.eraseTime =
      (RelayImageHelper A (withDoResponse env g u)).trace.map Event.eraseTime ∧
    ∀ (p : Prepared A) (calls : List (Event A)) (resp : Response) (e : ErrorWithStatusCode),
      prepare A env = (.ok p, calls) →
      ¬ sub64 (env.CacheGetUserQuota p.relayMeta.UserId) (pricing A env p).quota < 0 →
      p.adaptor.DoRequest p.relayMeta p.requestBody = .ok resp →
      resp.StatusCode = 200 →
      f resp p.relayMeta = some e →
      (RelayImageHelper A (withDoResponse env f t)).result = some e ∧
      tokenDebits (RelayImageHelper A (withDoResponse env f t)).trace =
        [(pricing A env p).quota] := by
  refine ⟨by rw [trace_withDoResponse, trace_withDoResponse], ?_⟩
  intro p calls resp e hprep hq hd h200 hf
  have hw : prepare A (withDoResponse env f t) = (.ok (setDoResponse f p), calls) := by
    rw [prepare_withDoResponse, hprep]; rfl
  have hq2 : ¬ sub64 ((withDoResponse env f t).CacheGetUserQuota (setDoResponse f p).relayMeta.UserId)
      (pricing A (withDoResponse env f t) (setDoResponse f p)).quota < 0 := hq
  have hd2 : (setDoResponse f p).adaptor.DoRequest (setDoResponse f p).relayMeta
      (setDoResponse f p).requestBody = .ok resp := hd
  refine ⟨?_, (answered_200_writes A (withDoResponse env f t) (setDoResponse f p) calls resp
    hw hq2 hd2 h200).1⟩
  rw [helper_answered hw hq2 hd2]
  exact hf

/-- Witness of C6: scenario S1 with a failing response hand-off returns the
hand-off error and still debits 1600. -/
theorem settlement_ignores_response_witness :
    (RelayImageHelper f64 envRespFail).result =
      some (ErrorWrapper "broken pipe" "bad_response" 500) ∧
    tokenDebits (RelayImageHelper f64 envRespFail).trace =
      [(pricing f64 envS1 preparedS1).quota] :=
  (settlement_ignores_response f64 envS1
    (fun _ _ => some (ErrorWrapper "broken pipe" "bad_response" 500)) (fun _ _ => none) 4 4).2
    preparedS1 [] { StatusCode := 200, Payload := "raw" }
    (ErrorWrapper "broken pipe" "bad_response" 500) rfl (by decide) rfl rfl rfl

/-- C7: every body passed to `adaptor.DoRequest` is the one the specification
selects: for Ali, Baidu and Zhipu the serialisation of
`ConvertImageRequest(imageRequest)`; otherwise, if the model name was remapped
or the channel is Azure, the serialisation of the canonical request carrying
the mapped name; otherwise the original body. -/
theorem request_body_selection (A : Arith) (env : Env A) (decoded : ImageRequest)
    (adaptor : Adaptor) (body : Body)
    (hdec : env.getImageRequest = .ok decoded)
    (had : env.GetAdaptor env.relayMeta.APIType = some adaptor)
    (h : body ∈ doRequestBodies (RelayImageHelper A env).trace) :
    specBody env decoded adaptor = .ok body := by
  cases hprep : prepare A env with
  | mk r calls =>
    have hcalls : doRequestBodies calls = [] :=
      convert_only_nil _ (fun _ => rfl) (prepare_calls hprep)
    cases r with
    | error e =>
      rw [helper_prepare_error hprep] at h
      simp only [hcalls, List.not_mem_nil] at h
    | ok p =>
      by_cases hq : sub64 (env.CacheGetUserQuota p.relayMeta.UserId) (pricing A env p).quota < 0
      · rw [helper_gate_reject hprep hq] at h
        simp only [hcalls, List.not_mem_nil] at h
      · rw [doRequest_once hprep hq, List.mem_singleton] at h
        obtain ⟨d, hd, -, -, -, -, -, ha, hbody, -⟩ := prepare_ok hprep
        rw [hdec] at hd
        rw [had] at ha
        cases hd
        cases ha
        exact h ▸ hbody

/-- Witness of C7 on an Ali channel: the body sent upstream is the
serialisation of the converted request. -/
theorem request_body_selection_witness :
    doRequestBodies (RelayImageHelper f64 envAli).trace = ["json:native:dall-e-3"] ∧
    specBody envAli preparedS1.imageRequest okAdaptor = .ok "json:native:dall-e-3" :=
  ⟨by decide, request_body_selection f64 envAli preparedS1.imageRequest okAdaptor
    "json:native:dall-e-3" rfl rfl (by decide)⟩

/-- C9, as stated, fails: on an Ali channel a request that passes decoding,
validation and the cost lookup and whose user quota 100 is below its charge
1600 is rejected with `insufficient_user_quota` only after
`ConvertImageRequest` was called; and when the adaptor cannot convert the
request the same request is answered `convert_image_request_failed` (500). -/
theorem bridge_runs_before_gate :
    (prepare f64 envAliPoor =
        (.ok preparedAli, [Event.ConvertImageRequest preparedS1.imageRequest]) ∧
      envAliPoor.CacheGetUserQuota preparedAli.relayMeta.UserId = 100 ∧
      (pricing f64 envAliPoor preparedAli).quota = 1600 ∧
      (RelayImageHelper f64 envAliPoor).result =
        some (ErrorWrapper "user quota is not enough" "insufficient_user_quota" 403) ∧
      convertCalls (RelayImageHelper f64 envAliPoor).trace = [preparedS1.imageRequest]) ∧
    (envAliFail.getImageRequest = .ok preparedS1.imageRequest ∧
      envAliFail.validateImageRequest preparedS1.imageRequest preparedAli.relayMeta = none ∧
      envAliFail.getImageCostRatio preparedS1.imageRequest = .ok lit_0_04 ∧
      envAliFail.CacheGetUserQuota preparedAli.relayMeta.UserId = 100 ∧
      (computeQuota f64 (envAliFail.GetModelRatio "dall-e-3")
        (envAliFail.GetGroupRatio "default") lit_0_04 2
        (envAliFail.GetTokenById 11).BillingEnabled
        (parseBool (envAliFail.OptionMap "BillingByRequestEnabled"))
        (parseBool (envAliFail.OptionMap "ModelRatioEnabled"))
        (envAliFail.GetModelRatio2 "dall-e-3") envAliFail.QuotaPerUnit).quota = 1600 ∧
      (RelayImageHelper f64 envAliFail).result =
        some (ErrorWrapper "unsupported size" "convert_image_request_failed" 500) ∧
      convertCalls (RelayImageHelper f64 envAliFail).trace = [preparedS1.imageRequest]) :=
  ⟨⟨rfl, rfl, by decide, by decide, by decide⟩,
    ⟨rfl, rfl, rfl, rfl, by decide, by decide, by decide⟩⟩

/-- C9, amended: body selection, adaptor selection and `ConvertImageRequest`
run after the image-cost lookup and before pricing and the gate.  For a
request that passes decoding and validation:
* if the cost lookup fails the answer is `get_image_cost_ratio_failed` (500)
  and `ConvertImageRequest` is not called;
* if it succeeds, the first failing preparation step decides the answer,
  whatever the quota: `marshal_image_request_failed` (500) when the canonical
  request cannot be serialised, else `invalid_api_type` (400) when there is no
  adaptor, else, for Ali, Baidu and Zhipu, `convert_image_request_failed` (500)
  when the conversion fails and `marshal_image_request_failed` (500) when its
  result cannot be serialised, in both cases after `ConvertImageRequest` was
  called;
* if every preparation step succeeds and `userQuota - quota < 0`, the answer is
  `insufficient_user_quota` (403), with `ConvertImageRequest` called exactly
  when the channel is Ali, Baidu or Zhipu.
`DoRequest` is called in none of these cases. -/
theorem gate_after_bridge_preparation (A : Arith) (env : Env A) (decoded : ImageRequest)
    (imageCostRatio : A.F)
    (hdec : env.getImageRequest = .ok decoded)
    (hval : env.validateImageRequest (canonicalRequest env decoded) (requestMeta env decoded) =
      none) :
    (∀ err, env.getImageCostRatio (canonicalRequest env decoded) = .error err →
      (RelayImageHelper A env).result =
        some (ErrorWrapper err "get_image_cost_ratio_failed" 500) ∧
      convertCalls (RelayImageHelper A env).trace = [] ∧
      doRequestBodies (RelayImageHelper A env).trace = []) ∧
    (env.getImageCostRatio (canonicalRequest env decoded) = .ok imageCostRatio →
      (∀ err, reserialised env decoded = true →
        env.marshalImageRequest (canonicalRequest env decoded) = .error err →
        (RelayImageHelper A env).result =
          some (ErrorWrapper err "marshal_image_request_failed" 500) ∧
        convertCalls (RelayImageHelper A env).trace = [] ∧
        doRequestBodies (RelayImageHelper A env).trace = []) ∧
      ((reserialised env decoded = true →
          ∃ jsonStr, env.marshalImageRequest (canonicalRequest env decoded) = .ok jsonStr) →
        (env.GetAdaptor env.relayMeta.APIType = none →
          (RelayImageHelper A env).result =
            some (ErrorWrapper ("invalid api type: " ++ toString env.relayMeta.APIType)
              "invalid_api_type" 400) ∧
          convertCalls (RelayImageHelper A env).trace = [] ∧
          doRequestBodies (RelayImageHelper A env).trace = []) ∧
        (∀ adaptor, env.GetAdaptor env.relayMeta.APIType = some adaptor →
          (∀ err, transcoded env.relayMeta.ChannelType = true →
            adaptor.ConvertImageRequest (canonicalRequest env decoded) = .error err →
            (RelayImageHelper A env).result =
              some (ErrorWrapper err "convert_image_request_failed" 500) ∧
            convertCalls (RelayImageHelper A env).trace = [canonicalRequest env decoded] ∧
            doRequestBodies (RelayImageHelper A env).trace = []) ∧
          (∀ native err, transcoded env.relayMeta.ChannelType = true →
            adaptor.ConvertImageRequest (canonicalRequest env decoded) = .ok native →
            env.marshalConverted native = .error err →
            (RelayImageHelper A env).result =
              some (ErrorWrapper err "marshal_image_request_failed" 500) ∧
            convertCalls (RelayImageHelper A env).trace = [canonicalRequest env decoded] ∧
            doRequestBodies (RelayImageHelper A env).trace = []) ∧
          (∀ body, specBody env decoded adaptor = .ok body →
            sub64 (env.CacheGetUserQuota env.relayMeta.UserId)
              (chargeOf A env decoded imageCostRatio) < 0 →
            (RelayImageHelper A env).result =
              some (ErrorWrapper "user quota is not enough" "insufficient_user_quota" 403) ∧
            convertCalls (RelayImageHelper A env).trace =
              (if transcoded env.relayMeta.ChannelType then [canonicalRequest env decoded]
               else []) ∧
            doRequestBodies (RelayImageHelper A env).trace = [])))) := by
  simp only [canonicalRequest, requestMeta] at hval
  simp only [canonicalRequest, reserialised, chargeOf]
  refine ⟨?_, ?_⟩
  · intro err hicr
    have hp : prepare A env =
        (.error (ErrorWrapper err "get_image_cost_ratio_failed" 500), []) := by
      simp only [prepare, hdec, hval, hicr]
    rw [helper_prepare_error hp]
    exact ⟨rfl, rfl, rfl⟩
  · intro hicr
    refine ⟨?_, ?_⟩
    · intro err hre hm
      have hp : prepare A env =
          (.error (ErrorWrapper err "marshal_image_request_failed" 500), []) := by
        simp only [prepare, hdec, hval, hicr, hre, if_true, hm]
      rw [helper_prepare_error hp]
      exact ⟨rfl, rfl, rfl⟩
    · intro hfirst
      have hbody : ∃ b0, (if ((env.GetMappedModelName decoded.Model env.relayMeta.ModelMapping).2 ||
            decide (env.relayMeta.ChannelType = ChannelType.Azure)) = true
          then env.marshalImageRequest
            { decoded with
              Model := (env.GetMappedModelName decoded.Model env.relayMeta.ModelMapping).1 }
          else Except.ok env.requestBody) = Except.ok b0 := by
        cases hre : ((env.GetMappedModelName decoded.Model env.relayMeta.ModelMapping).2 ||
            decide (env.relayMeta.ChannelType = ChannelType.Azure))
        · exact ⟨env.requestBody, by simp⟩
        · obtain ⟨j, hj⟩ := hfirst hre
          exact ⟨j, by simpa using hj⟩
      obtain ⟨b0, hb0⟩ := hbody
      refine ⟨?_, ?_⟩
      · intro had
        have hp : prepare A env =
            (.error (ErrorWrapper ("invalid api type: " ++ toString env.relayMeta.APIType)
              "invalid_api_type" 400), []) := by
          simp only [prepare, Bool.or_eq_true, decide_eq_true_eq, hdec, hval, hicr] at hb0 ⊢
          simp only [hb0, had]
        rw [helper_prepare_error hp]
        exact ⟨rfl, rfl, rfl⟩
      · intro adaptor had
        have hct : transcoded env.relayMeta.ChannelType = true ↔
            (env.relayMeta.ChannelType = ChannelType.Ali ∨
              env.relayMeta.ChannelType = ChannelType.Baidu ∨
              env.relayMeta.ChannelType = ChannelType.Zhipu) := by
          simp [transcoded]
        simp only [prepare, Bool.or_eq_true, decide_eq_true_eq, hdec, hval, hicr] at hb0
        refine ⟨?_, ?_, ?_⟩
        · intro err ht hc
          have hp : prepare A env =
              (.error (ErrorWrapper err "convert_image_request_failed" 500),
                [Event.ConvertImageRequest { decoded with
                  Model := (env.GetMappedModelName decoded.Model
                    env.relayMeta.ModelMapping).1 }]) := by
            simp only [prepare, Bool.or_eq_true, decide_eq_true_eq, hdec, hval, hicr]
            simp only [hb0, had, hct.mp ht, if_true, hc]
          rw [helper_prepare_error hp]
          exact ⟨rfl, rfl, rfl⟩
        · intro native err ht hc hm
          have hp : prepare A env =
              (.error (ErrorWrapper err "marshal_image_request_failed" 500),
                [Event.ConvertImageRequest { decoded with
                  Model := (env.GetMappedModelName decoded.Model
                    env.relayMeta.ModelMapping).1 }]) := by
            simp only [prepare, Bool.or_eq_true, decide_eq_true_eq, hdec, hval, hicr]
            simp only [hb0, had, hct.mp ht, if_true, hc, hm]
          rw [helper_prepare_error hp]
          exact ⟨rfl, rfl, rfl⟩
        · intro body hsb hq
          cases ht : transcoded env.relayMeta.ChannelType
          · have hnt : ¬ (env.relayMeta.ChannelType = ChannelType.Ali ∨
                env.relayMeta.ChannelType = ChannelType.Baidu ∨
                env.relayMeta.ChannelType = ChannelType.Zhipu) := by
              intro h
              rw [hct.mpr h] at ht
              cases ht
            have hb : b0 = body := by
              simp only [specBody, ht, Bool.false_eq_true, if_false] at hsb
              rw [hb0] at hsb
              cases hsb
              rfl
            subst hb
            have hp : prepare A env =
                (.ok { imageRequest := { decoded with
                         Model := (env.GetMappedModelName decoded.Model
                           env.relayMeta.ModelMapping).1 }
                       relayMeta := { env.relayMeta with
                         OriginModelName := decoded.Model
                         ActualModelName := (env.GetMappedModelName decoded.Model
                           env.relayMeta.ModelMapping).1 }
                       isModelMapped := (env.GetMappedModelName decoded.Model
                         env.relayMeta.ModelMapping).2
                       imageCostRatio := imageCostRatio
                       requestBody := b0
                       adaptor := adaptor }, []) := by
              simp only [prepare, Bool.or_eq_true, decide_eq_true_eq, hdec, hval, hicr]
              simp only [hb0, had, hnt, if_false]
            rw [helper_gate_reject hp hq]
            exact ⟨rfl, rfl, rfl⟩
          · have hyes := hct.mp ht
            simp only [specBody, ht, if_true] at hsb
            cases hc : adaptor.ConvertImageRequest { decoded with
                Model := (env.GetMappedModelName decoded.Model
                  env.relayMeta.ModelMapping).1 } with
            | error err => rw [hc] at hsb; cases hsb
            | ok native =>
              rw [hc] at hsb
              have hm : env.marshalConverted native = .ok body := hsb
              have hp : prepare A env =
                  (.ok { imageRequest := { decoded with
                           Model := (env.GetMappedModelName decoded.Model
                             env.relayMeta.ModelMapping).1 }
                         relayMeta := { env.relayMeta with
                           OriginModelName := decoded.Model
                           ActualModelName := (env.GetMappedModelName decoded.Model
                             env.relayMeta.ModelMapping).1 }
                         isModelMapped := (env.GetMappedModelName decoded.Model
                           env.relayMeta.ModelMapping).2
                         imageCostRatio := imageCostRatio
                         requestBody := body
                         adaptor := adaptor },
                    [Event.ConvertImageRequest { decoded with
                      Model := (env.GetMappedModelName decoded.Model
                        env.relayMeta.ModelMapping).1 }]) := by
                simp only [prepare, Bool.or_eq_true, decide_eq_true_eq, hdec, hval, hicr]
                simp only [hb0, had, hyes, if_true, hc, hm]
              rw [helper_gate_reject hp hq]
              exact ⟨rfl, rfl, rfl⟩

/-- Witness of C9 (amended), each on the S5 request (user quota 100, charge
1600): on an Ali channel whose adaptor cannot convert, the answer is
`convert_image_request_failed` after one `ConvertImageRequest` call; on an Ali
channel whose adaptor converts, the answer is `insufficient_user_quota` after
one `ConvertImageRequest` call; with no adaptor the answer is
`invalid_api_type`. -/
theorem gate_after_bridge_preparation_witness :
    ((RelayImageHelper f64 envAliFail).result =
        some (ErrorWrapper "unsupported size" "convert_image_request_failed" 500) ∧
      convertCalls (RelayImageHelper f64 envAliFail).trace =
        [canonicalRequest envAliFail requestS1] ∧
      doRequestBodies (RelayImageHelper f64 envAliFail).trace = []) ∧
    ((RelayImageHelper f64 envAliPoor).result =
        some (ErrorWrapper "user quota is not enough" "insufficient_user_quota" 403) ∧
      convertCalls (RelayImageHelper f64 envAliPoor).trace =
        (if transcoded envAliPoor.relayMeta.ChannelType
          then [canonicalRequest envAliPoor requestS1] else []) ∧
      doRequestBodies (RelayImageHelper f64 envAliPoor).trace = []) ∧
    ((RelayImageHelper f64 envNoAdaptor).result =
        some (ErrorWrapper ("invalid api type: " ++ toString envNoAdaptor.relayMeta.APIType)
          "invalid_api_type" 400) ∧
      convertCalls (RelayImageHelper f64 envNoAdaptor).trace = [] ∧
      doRequestBodies (RelayImageHelper f64 envNoAdaptor).trace = []) :=
  have hFail := ((gate_after_bridge_preparation f64 envAliFail requestS1 lit_0_04 rfl rfl).2
    rfl).2 (fun h => absurd h (by decide))
  have hPoor := ((gate_after_bridge_preparation f64 envAliPoor requestS1 lit_0_04 rfl rfl).2
    rfl).2 (fun h => absurd h (by decide))
  have hNone := ((gate_after_bridge_preparation f64 envNoAdaptor requestS1 lit_0_04 rfl rfl).2
    rfl).2 (fun h => absurd h (by decide))
  ⟨(hFail.2 failingConvert rfl).1 "unsupported size" (by decide) rfl,
    (hPoor.2 okAdaptor rfl).2.2 "json:native:dall-e-3" rfl (by decide),
    hNone.1 rfl⟩

end RelayImage
